import Mathlib

/-!
Shallow embedding of the day-17 register machine: the bytecode interpreter
(a Computer record advanced by tick) and the part-2 quine solver
(apply_cycle and solve_part2), translated from src/day17/src/lib.rs.
-/

namespace Day17

/-- Machine word, u64 in the source.  Every operation the machine performs
on register values (logical right shift, xor, masking with 7) maps values
below 2 ^ 64 to values below 2 ^ 64, so a plain Nat models it without any
wrap-around correction. -/
abbrev Register := Nat

/-- Program byte, u8 in the source; the loader only produces values below
256, and decoding checks the value fits in three bits. -/
abbrev ThreeBit := Nat

/-- Opcode enumeration, in source declaration order (discriminants 0..7). -/
inductive Instruction
  | Adv
  | Bxl
  | Bst
  | Jnz
  | Bxc
  | Out
  | Bdv
  | Cdv
deriving DecidableEq, Repr

/-- Opcode decoding from the numeric discriminant (strum FromRepr). -/
def Instruction.fromRepr : Nat → Option Instruction
  | 0 => some .Adv
  | 1 => some .Bxl
  | 2 => some .Bst
  | 3 => some .Jnz
  | 4 => some .Bxc
  | 5 => some .Out
  | 6 => some .Bdv
  | 7 => some .Cdv
  | _ => none

/-- Machine state: registers A, B, C, the instruction pointer, the loaded
program and the output stream. -/
structure Computer where
  regA : Register
  regB : Register
  regC : Register
  instruction_pointer : Nat
  program : List ThreeBit
  output : List ThreeBit
deriving DecidableEq, Repr

/-- Read registers[i], with A, B, C at indices 0, 1, 2. -/
def Computer.reg (c : Computer) : Nat → Register
  | 0 => c.regA
  | 1 => c.regB
  | _ => c.regC

/-- Write registers[i]. -/
def Computer.setReg (c : Computer) : Nat → Register → Computer
  | 0, v => { c with regA := v }
  | 1, v => { c with regB := v }
  | _, v => { c with regC := v }

/-- Raw operand fetch: the byte one past the instruction pointer; fails if
that position is past the end of the program or the byte does not fit in
three bits (the source masks a u8 with the complement of 0b111, i.e. 248). -/
def Computer.operand (c : Computer) : Except String ThreeBit :=
  match c.program[c.instruction_pointer + 1]? with
  | none => .error "program terminated with instruction but no operand"
  | some operand =>
      if operand &&& 248 ≠ 0 then
        .error "operand out of range for ThreeBit"
      else
        .ok operand

/-- Literal operand: the raw operand used as-is. -/
def Computer.literal_operand (c : Computer) : Except String ThreeBit :=
  c.operand

/-- Combo operand: 0..3 literal, 4..6 read registers A, B, C, 7 reserved. -/
def Computer.combo_operand (c : Computer) : Except String Register :=
  match c.operand with
  | .error e => .error e
  | .ok operand =>
      if operand ≤ 3 then .ok operand
      else if operand ≤ 6 then .ok (c.reg (operand - 4))
      else .error "register 7 is reserved and not present in valid programs"

/-- Next instruction pointer.  For a jump with A nonzero the source indexes
the program vector directly (self.program[ip + 1]); an out-of-bounds index
there is a Rust panic, modelled as none. -/
def Computer.next_ip (c : Computer) (instruction : Instruction) : Option Nat :=
  if instruction = .Jnz ∧ c.regA ≠ 0 then
    c.program[c.instruction_pointer + 1]?
  else
    some (c.instruction_pointer + 2)

/-- Shared body of Adv, Bdv, Cdv: registers[store_idx] := A >> combo.  The
source shifts a u64 by a u64: the shift amount acts modulo 64 (the
release-build masking of the machine shift; a debug build panics instead
when the amount is 64 or more, so in no build does a large amount produce
an unbounded shift). -/
def Computer.right_shift (c : Computer) (combo_operand : Register)
    (store_idx : Nat) : Computer :=
  c.setReg store_idx (c.regA >>> (combo_operand % 64))

/-- Effect of one decoded instruction on the state (the match arms of the
source tick, before the instruction pointer update). -/
def Computer.execute (c : Computer) (instruction : Instruction) :
    Except String Computer :=
  match instruction with
  | .Adv => c.combo_operand.map fun v => c.right_shift v 0
  | .Bdv => c.combo_operand.map fun v => c.right_shift v 1
  | .Cdv => c.combo_operand.map fun v => c.right_shift v 2
  | .Bxl => c.literal_operand.map fun v => { c with regB := c.regB ^^^ v }
  | .Bxc => .ok { c with regB := c.regB ^^^ c.regC }
  | .Bst => c.combo_operand.map fun v => { c with regB := v &&& 7 }
  | .Out => c.combo_operand.map fun v => { c with output := c.output ++ [v &&& 7] }
  | .Jnz => .ok c

/-- Result of one tick.  The source returns Result of bool from a mutating
method: Ok(false) is halted (state untouched), Ok(true) is running with the
updated state, Err is a surfaced error, and a Rust panic (out-of-bounds
vector index in next_ip) is modelled separately since it is not surfaced as
a recoverable error. -/
inductive TickResult
  | halted (c : Computer)
  | running (c : Computer)
  | err (msg : String)
  | panic
deriving DecidableEq, Repr

/-- Process one instruction: fetch the opcode (halting normally when the
instruction pointer is past the end), decode it, apply its effect, then
update the instruction pointer. -/
def Computer.tick (c : Computer) : TickResult :=
  match c.program[c.instruction_pointer]? with
  | none => .halted c
  | some code =>
      match Instruction.fromRepr code with
      | none => .err "invalid instruction"
      | some instruction =>
          match c.execute instruction with
          | .error msg => .err msg
          | .ok c' =>
              match c'.next_ip instruction with
              | none => .panic
              | some ip => .running { c' with instruction_pointer := ip }

/-- Drive the machine for up to n ticks, stopping at the first tick that is
not a normal running step (the callers loop while tick returns true). -/
def Computer.run : Nat → Computer → Computer
  | 0, c => c
  | n + 1, c =>
      match c.tick with
      | .running c' => Computer.run n c'
      | _ => c

/-- Complete executions: RunsTo c r holds when driving the machine from c
tick by tick reaches the normal halt with final state r. -/
inductive RunsTo : Computer → Computer → Prop
  | halt (c c' : Computer) : c.tick = .halted c' → RunsTo c c'
  | step (c c' c'' : Computer) :
      c.tick = .running c' → RunsTo c' c'' → RunsTo c c''

/-- One cycle of the decompiled part-2 program, hardcoded in the source from
the author's own puzzle input: B = (A and 7) xor 2; C = A >> B;
B = B xor C xor 3; the emitted digit is B and 7. -/
def apply_cycle (a : Register) : Register :=
  let b := (a &&& 7) ^^^ 2
  let c := a >>> b
  let b := b ^^^ (c ^^^ 3)
  b &&& 7

/-- Reassembly of the loop documented at apply_cycle: B = A and 7; B xor 2;
C = A >> B; B xor C; B xor 3; output B; A >> 3; jump to 0 while A nonzero. -/
def decompiled_program : List ThreeBit :=
  [2, 4, 1, 2, 7, 5, 4, 1, 1, 3, 5, 5, 0, 3, 3, 0]

/-- Work item of the backward search: index from the right of the current
program byte, and the accumulator value built so far. -/
structure SearchNode where
  right_index : Nat
  successor_a : Register
deriving DecidableEq, Repr

/-- Minimum of two Option values under the Rust Ord for Option, in which
none is smaller than some value. -/
def option_min : Option Register → Option Register → Option Register
  | none, _ => none
  | some _, none => none
  | some a, some b => some (min a b)

/-- Outcome of the solver loop: the returned minimum once the queue is
empty, a Rust panic (usize underflow computing len - 1 - right_index), or
fuel exhaustion of the model. -/
inductive SolveResult
  | out (min_a : Option Register)
  | panic
  | fuelOut
deriving DecidableEq, Repr

/-- Candidate accumulator values of one popped node that pass the per-digit
check: among the eight trials three_bits or (successor_a shifted left by 3),
in order, those whose apply_cycle digit equals the expected program byte. -/
def node_hits (node : SearchNode) (expected_b : ThreeBit) : List Register :=
  ((List.range 8).map
      fun three_bits => three_bits ||| (node.successor_a <<< 3)).filter
    fun a => apply_cycle a = expected_b

/-- Instrumentation: account for the eight apply_cycle evaluations and the
one queue pop a processed node costs. -/
def bump : SolveResult × Nat × Nat → SolveResult × Nat × Nat
  | (r, evals, popped) => (r, evals + 8, popped + 1)

/-- Work loop of solve_part2, instrumented: alongside the result it counts
the evaluations of apply_cycle and the nodes popped from the queue.  Each
popped node tries the eight three-bit extensions in order; matches update
the running minimum at index 0 and are enqueued at the back otherwise.  The
usize underflow of (length - 1 - right_index) on an empty program is the
panic outcome. -/
def solveLoop (program : List ThreeBit) :
    Nat → List SearchNode → Option Register → SolveResult × Nat × Nat
  | 0, _, _ => (.fuelOut, 0, 0)
  | _ + 1, [], min_a => (.out min_a, 0, 0)
  | fuel + 1, node :: queue, min_a =>
      if program.length < node.right_index + 1 then
        (.panic, 0, 1)
      else if program.length - 1 - node.right_index = 0 then
        bump (solveLoop program fuel queue
          ((node_hits node (program.getD (program.length - 1 - node.right_index) 0)).foldl
            (fun m a => option_min m (some a)) min_a))
      else
        bump (solveLoop program fuel
          (queue ++ (node_hits node
              (program.getD (program.length - 1 - node.right_index) 0)).map
            fun a => ⟨node.right_index + 1, a⟩) min_a)

/-- Backward quine search of the source, from a queue holding the single
node (right_index 0, successor 0) and an empty running minimum. -/
def solve_part2 (program : List ThreeBit) (fuel : Nat) : SolveResult :=
  (solveLoop program fuel [⟨0, 0⟩] none).1

/-!
Helper lemmas shared by the claim theorems.
-/

/-- Unfolding of run for a successor fuel count. -/
theorem run_succ (n : Nat) (c : Computer) :
    Computer.run (n + 1) c = (match c.tick with
      | .running c' => Computer.run n c'
      | _ => c) := rfl

/-- The effect of any decoded instruction leaves the loaded program alone. -/
theorem execute_program_eq (c : Computer) (i : Instruction) (c' : Computer)
    (h : c.execute i = .ok c') : c'.program = c.program := by
  cases i <;> simp only [Computer.execute, Computer.literal_operand] at h <;>
    (try (cases hc : c.combo_operand <;> rw [hc] at h)) <;>
    (try (cases ho : c.operand <;> rw [ho] at h)) <;>
    (try simp only [Except.map] at h) <;>
    first
    | exact Except.noConfusion h
    | (injection h with h; subst h; rfl)

/-- A normal running tick leaves the loaded program alone. -/
theorem tick_program_eq (c c' : Computer) (h : c.tick = .running c') :
    c'.program = c.program := by
  unfold Computer.tick at h
  split at h
  · exact TickResult.noConfusion h
  split at h
  · exact TickResult.noConfusion h
  next instruction hinstr =>
    split at h
    · exact TickResult.noConfusion h
    next c'' hexec =>
      split at h
      · exact TickResult.noConfusion h
      next ip hip =>
        injection h with h
        subst h
        exact execute_program_eq c instruction c'' hexec

/-- Fetching past the end of the program halts without touching the state. -/
theorem tick_halted_of_past_end (c : Computer)
    (h : c.program.length ≤ c.instruction_pointer) : c.tick = .halted c := by
  unfold Computer.tick
  rw [List.getElem?_eq_none h]

/-- The shift amount one decompiled cycle feeds to the C divide is below
64, so the u64 shift mask leaves it alone. -/
theorem cycle_shift_mod (a : Nat) : ((a &&& 7) ^^^ 2) % 64 = (a &&& 7) ^^^ 2 := by
  have h : (a &&& 7) ^^^ 2 < 2 ^ 6 :=
    Nat.xor_lt_two_pow (lt_of_le_of_lt Nat.and_le_right (by norm_num))
      (by norm_num)
  exact Nat.mod_eq_of_lt (lt_of_lt_of_le h (by norm_num))

/-- Complete executions from the same state end in the same state. -/
theorem runsTo_unique {c r₁ : Computer} (h₁ : RunsTo c r₁) :
    ∀ r₂, RunsTo c r₂ → r₁ = r₂ := by
  induction h₁ with
  | halt c c₁ ht =>
      intro r₂ h₂
      cases h₂ with
      | halt _ _ ht₂ => rw [ht] at ht₂; injection ht₂
      | step _ d' _ ht₂ _ => rw [ht] at ht₂; exact TickResult.noConfusion ht₂
  | step c c' c'' ht hrun ih =>
      intro r₂ h₂
      cases h₂ with
      | halt _ _ ht₂ => rw [ht] at ht₂; exact TickResult.noConfusion ht₂
      | step _ d' _ ht₂ hrun₂ =>
          rw [ht] at ht₂
          injection ht₂ with he
          subst he
          exact ih _ hrun₂

/-!
Claim theorems.
-/

/-- C1: on the program [0,3,5,4,3,0] the quine solver is claimed to return
exactly 117440, the minimal quine-producing A.  The code instead returns
none: 117440 really is a quine input (running the program with A = 117440
reproduces the program), but the running-minimum update folds with the
Option minimum, for which none is below every value, so no full-length
match is ever recorded. -/
theorem solve_part2_example_returns_none :
    solve_part2 [0, 3, 5, 4, 3, 0] 50 = .out none ∧
    (Computer.run 20 ⟨117440, 0, 0, 0, [0, 3, 5, 4, 3, 0], []⟩).output
      = [0, 3, 5, 4, 3, 0] ∧
    option_min none (some 117440) = none :=
  ⟨by decide, by decide, rfl⟩

/-- C2 counterexample: on the target program [0,3,5,4,3,0] with trial value
0, one interpreter pass of the loop body (three ticks: shift, output, jump)
emits the digit 0, while the digit the per-digit check compares is
apply_cycle 0 = 1.  The check is not the interpreter run on the target
program. -/
theorem apply_cycle_differs_from_target_one_pass :
    apply_cycle 0 = 1 ∧
    (Computer.run 3 ⟨0, 0, 0, 0, [0, 3, 5, 4, 3, 0], []⟩).output = [0] :=
  ⟨by decide, by decide⟩

/-- C2 amended: for every trial value a, the digit the per-digit check
compares, apply_cycle a, equals the digit emitted by running the
interpreter from a freshly reset state with A = a, B = C = 0 through
exactly one pass (eight ticks) of the loop body of the decompiled program
that apply_cycle hardcodes — the author's own input, not the given target
program. -/
theorem apply_cycle_matches_decompiled_one_pass (a : Register) :
    (Computer.run 8 ⟨a, 0, 0, 0, decompiled_program, []⟩).output
      = [apply_cycle a] := by
  by_cases h : a >>> 3 = 0 <;>
    simp +decide [Computer.run, Computer.tick, Computer.execute,
      Computer.combo_operand, Computer.literal_operand, Computer.operand,
      Computer.next_ip, Computer.right_shift, Computer.reg, Computer.setReg,
      Instruction.fromRepr, decompiled_program, apply_cycle, h, Nat.xor_assoc,
      Except.map, cycle_shift_mod]

/-- C3 counterexample: the xor-B-C instruction at the last index of the
program does not fail; it ignores its operand and ticks normally. -/
theorem bxc_at_last_index_succeeds :
    Computer.tick ⟨0, 0, 0, 0, [4], []⟩ = .running ⟨0, 0, 0, 2, [4], []⟩ := by
  decide

/-- C3 amended: with the opcode at the last index of the program (operand
position past the end), the six operand-reading instructions fail with the
malformed-program error surfaced to the caller; xor-B-C ignores its operand
and ticks normally; jump-if-A-nonzero ticks normally when A = 0 and panics
(out-of-bounds vector index, not a surfaced error) when A is nonzero. -/
theorem tick_at_last_index (c : Computer) (op : Nat)
    (hcode : c.program[c.instruction_pointer]? = some op)
    (hlen : c.program.length = c.instruction_pointer + 1) :
    ((op = 0 ∨ op = 1 ∨ op = 2 ∨ op = 5 ∨ op = 6 ∨ op = 7) →
      c.tick = .err "program terminated with instruction but no operand") ∧
    (op = 4 → c.tick =
      .running { c with regB := c.regB ^^^ c.regC, instruction_pointer := c.instruction_pointer + 2 }) ∧
    (op = 3 →
      (c.regA = 0 →
        c.tick = .running { c with instruction_pointer := c.instruction_pointer + 2 }) ∧
      (c.regA ≠ 0 → c.tick = .panic)) := by
  have hnone : c.program[c.instruction_pointer + 1]? = none :=
    List.getElem?_eq_none (by omega)
  refine ⟨?_, ?_, ?_⟩
  · rintro (rfl | rfl | rfl | rfl | rfl | rfl) <;>
      simp [Computer.tick, hcode, Instruction.fromRepr, Computer.execute,
        Computer.combo_operand, Computer.literal_operand, Computer.operand, hnone,
        Except.map]
  · rintro rfl
    simp [Computer.tick, hcode, Instruction.fromRepr, Computer.execute,
      Computer.next_ip]
  · rintro rfl
    constructor
    · intro hA
      simp [Computer.tick, hcode, Instruction.fromRepr, Computer.execute,
        Computer.next_ip, hA]
    · intro hA
      simp [Computer.tick, hcode, Instruction.fromRepr, Computer.execute,
        Computer.next_ip, hA, hnone]

/-- Witness for C3 at a concrete input: the output instruction alone at the
last index fails with the surfaced malformed-program error. -/
theorem tick_at_last_index_witness :
    Computer.tick ⟨0, 0, 0, 0, [5], []⟩ =
      .err "program terminated with instruction but no operand" :=
  (tick_at_last_index ⟨0, 0, 0, 0, [5], []⟩ 5 rfl rfl).1 (by decide)

/-- C4: a jump-if-A-nonzero tick with A = 0 only advances the instruction
pointer by 2; with A nonzero it sets the instruction pointer to exactly the
literal operand value as an absolute index, regardless of the current
instruction pointer; registers and output are unchanged in both cases. -/
theorem jnz_control_flow (c : Computer)
    (h : c.program[c.instruction_pointer]? = some 3) :
    (c.regA = 0 →
      c.tick = .running { c with instruction_pointer := c.instruction_pointer + 2 }) ∧
    (∀ v, c.regA ≠ 0 → c.program[c.instruction_pointer + 1]? = some v →
      c.tick = .running { c with instruction_pointer := v }) := by
  constructor
  · intro hA
    simp [Computer.tick, h, Instruction.fromRepr, Computer.execute,
      Computer.next_ip, hA]
  · intro v hA hv
    simp [Computer.tick, h, Instruction.fromRepr, Computer.execute,
      Computer.next_ip, hA, hv]

/-- Witness for C4 at a concrete input: a jump with A = 1 from instruction
pointer 0 lands exactly on the operand value 4. -/
theorem jnz_control_flow_witness :
    Computer.tick ⟨1, 0, 0, 0, [3, 4], []⟩ = .running ⟨1, 0, 0, 4, [3, 4], []⟩ :=
  (jnz_control_flow ⟨1, 0, 0, 0, [3, 4], []⟩ rfl).2 4 (by decide) rfl

/-- C5 counterexample: right-shift-into-A with combo operand 4 (register A)
on A = 2 ^ 63 has combo value k = 2 ^ 63, and the u64 shift masks the
amount to 2 ^ 63 mod 64 = 0 bits, so the tick stores 2 ^ 63 back into A;
the claimed value A / 2 ^ k is 0, and 2 ^ 63 is not 0, so the claim fails
at this input (a debug build panics there instead, which also is not the
claimed store). -/
theorem right_shift_large_combo_masks :
    Computer.tick ⟨2 ^ 63, 0, 0, 0, [0, 4], []⟩ =
      .running ⟨2 ^ 63, 0, 0, 2, [0, 4], []⟩ ∧
    (2 ^ 63 : Nat) / 2 ^ (2 ^ 63 : Nat) = 0 ∧
    (2 ^ 63 : Nat) ≠ 0 :=
  ⟨by decide, Nat.div_eq_of_lt (Nat.lt_two_pow _), by decide⟩

/-- C5 amended: a tick of any of the three divide instructions (opcodes 0,
6, 7) with a valid combo operand of value k below 64 stores into the target
register (A, B, C respectively) the old A logically right-shifted by k
bits, which equals A divided by 2 ^ k truncated, for every A — covering
every literal combo value and the spec's tested range k = 0..7; for k of 64
or more the u64 shift instead masks the amount modulo 64 (release) or
panics (debug). -/
theorem divide_instructions_right_shift (c : Computer) (op w : Nat)
    (hop : op = 0 ∨ op = 6 ∨ op = 7)
    (hcode : c.program[c.instruction_pointer]? = some op)
    (hw : c.program[c.instruction_pointer + 1]? = some w)
    (hw6 : w ≤ 6)
    (hk : (if w ≤ 3 then w else c.reg (w - 4)) < 64) :
    ∃ c', c.tick = .running c' ∧
      c'.reg (if op = 0 then 0 else if op = 6 then 1 else 2)
        = c.regA >>> (if w ≤ 3 then w else c.reg (w - 4)) ∧
      c.regA >>> (if w ≤ 3 then w else c.reg (w - 4))
        = c.regA / 2 ^ (if w ≤ 3 then w else c.reg (w - 4)) := by
  rcases hop with rfl | rfl | rfl <;> interval_cases w <;>
    first
    | (simp +decide [Computer.tick, hcode, hw, Instruction.fromRepr,
        Computer.execute, Computer.combo_operand, Computer.operand,
        Computer.right_shift, Computer.next_ip, Computer.reg, Computer.setReg,
        Except.map, Nat.shiftRight_eq_div_pow]
       done)
    | (simp +decide [Computer.reg] at hk
       simp +decide [Computer.tick, hcode, hw, Instruction.fromRepr,
        Computer.execute, Computer.combo_operand, Computer.operand,
        Computer.right_shift, Computer.next_ip, Computer.reg, Computer.setReg,
        Except.map, Nat.shiftRight_eq_div_pow, Nat.mod_eq_of_lt hk])

/-- Witness for C5 at a concrete input: right-shift-into-A with combo value
3 on A = 2 ^ 63. -/
theorem divide_instructions_right_shift_witness :
    ∃ c', Computer.tick ⟨2 ^ 63, 0, 0, 0, [0, 3], []⟩ = .running c' ∧
      c'.reg (if (0 : Nat) = 0 then 0 else if (0 : Nat) = 6 then 1 else 2)
        = (2 ^ 63 : Nat) >>> (if (3 : Nat) ≤ 3 then 3
            else (⟨2 ^ 63, 0, 0, 0, [0, 3], []⟩ : Computer).reg (3 - 4)) ∧
      (2 ^ 63 : Nat) >>> (if (3 : Nat) ≤ 3 then 3
            else (⟨2 ^ 63, 0, 0, 0, [0, 3], []⟩ : Computer).reg (3 - 4))
        = 2 ^ 63 / 2 ^ (if (3 : Nat) ≤ 3 then 3
            else (⟨2 ^ 63, 0, 0, 0, [0, 3], []⟩ : Computer).reg (3 - 4)) :=
  divide_instructions_right_shift ⟨2 ^ 63, 0, 0, 0, [0, 3], []⟩ 0 3
    (Or.inl rfl) rfl rfl (by decide) (by decide)

/-- C6: executing the engine to halt is deterministic.  Any two complete
runs from identical initial registers, instruction pointer and program
(and a fresh, empty output stream) produce identical output streams and
final register values. -/
theorem execution_deterministic (a b c ip : Nat) (program : List ThreeBit)
    (r₁ r₂ : Computer)
    (h₁ : RunsTo ⟨a, b, c, ip, program, []⟩ r₁)
    (h₂ : RunsTo ⟨a, b, c, ip, program, []⟩ r₂) :
    r₁.output = r₂.output ∧ r₁.regA = r₂.regA ∧ r₁.regB = r₂.regB ∧
      r₁.regC = r₂.regC := by
  obtain rfl := runsTo_unique h₁ r₂ h₂
  exact ⟨rfl, rfl, rfl, rfl⟩

/-- Witness for C6 at a concrete input: the empty program halts at once and
both runs agree. -/
theorem execution_deterministic_witness :
    (⟨0, 0, 0, 0, [], []⟩ : Computer).output
        = (⟨0, 0, 0, 0, [], []⟩ : Computer).output ∧
    (⟨0, 0, 0, 0, [], []⟩ : Computer).regA
        = (⟨0, 0, 0, 0, [], []⟩ : Computer).regA ∧
    (⟨0, 0, 0, 0, [], []⟩ : Computer).regB
        = (⟨0, 0, 0, 0, [], []⟩ : Computer).regB ∧
    (⟨0, 0, 0, 0, [], []⟩ : Computer).regC
        = (⟨0, 0, 0, 0, [], []⟩ : Computer).regC :=
  execution_deterministic 0 0 0 0 [] _ _
    (RunsTo.halt _ _ rfl) (RunsTo.halt _ _ rfl)

/-- C7 counterexample: on the program [0,3,5,4,3,0] of length 6 the queue
empties after 19 popped nodes and 152 evaluations of apply_cycle, more than
the claimed bound of 8 times the program length, 48. -/
theorem solver_evals_exceed_eight_times_length :
    solveLoop [0, 3, 5, 4, 3, 0] 50 [⟨0, 0⟩] none = (.out none, 152, 19) ∧
    ¬(152 ≤ 8 * 6) :=
  ⟨by decide, by decide⟩

/-- C7 amended: the solver performs exactly 8 evaluations of apply_cycle
per search node popped from the queue (whenever no usize underflow panic
occurs); the number of popped nodes is not bounded by the program length,
so the total can exceed 8 times the program length. -/
theorem solver_evals_eight_per_popped_node (program : List ThreeBit)
    (fuel : Nat) :
    ∀ (queue : List SearchNode) (min_a : Option Register),
      (solveLoop program fuel queue min_a).1 ≠ .panic →
      (solveLoop program fuel queue min_a).2.1 =
        8 * (solveLoop program fuel queue min_a).2.2 := by
  induction fuel with
  | zero => intro q m _; rfl
  | succ fuel ih =>
      intro q m hnp
      match q with
      | [] => rfl
      | node :: queue =>
          rw [solveLoop] at hnp ⊢
          by_cases hpl : program.length < node.right_index + 1
          · rw [if_pos hpl] at hnp
            exact absurd rfl hnp
          · rw [if_neg hpl] at hnp ⊢
            by_cases hz : program.length - 1 - node.right_index = 0 <;>
              [rw [if_pos hz] at hnp ⊢; rw [if_neg hz] at hnp ⊢] <;>
            · rcases hX : solveLoop program fuel _ _ with ⟨r, e, p⟩
              rw [hX] at hnp
              have hr : r ≠ SolveResult.panic := by simpa [bump] using hnp
              have he := ih _ _ (by rw [hX]; exact hr)
              rw [hX] at he
              simp only [bump] at he ⊢
              omega

/-- Witness for C7 at a concrete input: two steps of the search on
[0,3,5,4,3,0] pop one node and evaluate apply_cycle eight times. -/
theorem solver_evals_eight_per_popped_node_witness :
    (solveLoop [0, 3, 5, 4, 3, 0] 2 [⟨0, 0⟩] none).1 ≠ SolveResult.panic ∧
    (solveLoop [0, 3, 5, 4, 3, 0] 2 [⟨0, 0⟩] none).2.1 =
      8 * (solveLoop [0, 3, 5, 4, 3, 0] 2 [⟨0, 0⟩] none).2.2 :=
  ⟨by decide,
    solver_evals_eight_per_popped_node [0, 3, 5, 4, 3, 0] 2 [⟨0, 0⟩] none
      (by decide)⟩

/-- C8: the loaded program is never mutated; after any number of ticks from
any initial state the program field is unchanged. -/
theorem program_never_mutated (n : Nat) (c : Computer) :
    (Computer.run n c).program = c.program := by
  induction n generalizing c with
  | zero => rfl
  | succ n ih =>
      rw [run_succ]
      cases ht : c.tick with
      | running c' => exact (ih c').trans (tick_program_eq c c' ht)
      | halted c' => rfl
      | err msg => rfl
      | panic => rfl

/-- C9: the halted state is absorbing.  With the instruction pointer at or
past the end of the program, a tick reports the normal no-more-work halt
with the state untouched, and any number of further ticks leaves the whole
state (registers, instruction pointer, output) unchanged. -/
theorem halted_state_absorbing (c : Computer)
    (h : c.program.length ≤ c.instruction_pointer) (n : Nat) :
    c.tick = .halted c ∧ Computer.run n c = c := by
  refine ⟨tick_halted_of_past_end c h, ?_⟩
  cases n with
  | zero => rfl
  | succ n => rw [run_succ, tick_halted_of_past_end c h]

/-- Witness for C9 at a concrete input: instruction pointer 5 on a program
of length 2. -/
theorem halted_state_absorbing_witness :
    Computer.tick ⟨0, 0, 0, 5, [1, 2], []⟩ = .halted ⟨0, 0, 0, 5, [1, 2], []⟩ ∧
    Computer.run 3 ⟨0, 0, 0, 5, [1, 2], []⟩ = ⟨0, 0, 0, 5, [1, 2], []⟩ :=
  halted_state_absorbing ⟨0, 0, 0, 5, [1, 2], []⟩ (by decide) 3

/-- C10: on the empty program the solver panics through the usize underflow
in the index computation (length - 1 - right_index on the initial node)
instead of reporting the no-solution outcome. -/
theorem solve_part2_empty_program_panics (fuel : Nat) (h : 0 < fuel) :
    solve_part2 [] fuel = .panic := by
  obtain ⟨f, rfl⟩ : ∃ f, fuel = f + 1 := ⟨fuel - 1, by omega⟩
  rw [solve_part2, solveLoop]
  norm_num

/-- Witness for C10 at a concrete input: one unit of fuel already panics. -/
theorem solve_part2_empty_program_panics_witness :
    solve_part2 [] 1 = .panic :=
  solve_part2_empty_program_panics 1 (by decide)

end Day17
